import Mathlib

/-!
Verification of the aioari event client (src/aioari/client.py).

The embedding models Python values reachable from JSON messages and
listener registrations, the listener registry (a dict from event type to a
list of registration tuples), and the operations of the Client class:
on_event, on_object_event / extract_objects, process_ws (listener dispatch
plus the ChannelDestroyed garbage-collection pass), the frame read loop
(Client.__run) and close().
-/

namespace Aioari

/-- Python values as produced by json.loads, plus the extra shapes that occur
inside a listener registration tuple: argument tuples, keyword-argument
dicts, and function objects (identified here by a numeric id).  JSON null
parses to Python None, the constructor `none` here.  Tuples and dicts are
encoded first-order: a tuple is a chain of tupleCons ending in tupleNil and
a dict is a chain of dictCons ending in dictNil, so that equality is
structural and decidable. -/
inductive PyVal where
  | none
  | bool (b : Bool)
  | int (n : Int)
  | str (s : String)
  | func (id : Nat)
  | tupleNil
  | tupleCons (head tail : PyVal)
  | dictNil
  | dictCons (key : String) (val : PyVal) (tail : PyVal)
deriving DecidableEq

/-- Builds a tuple value from a list of values. -/
def PyVal.ofList (xs : List PyVal) : PyVal :=
  xs.foldr PyVal.tupleCons PyVal.tupleNil

/-- Builds a dict value from an association list. -/
def PyVal.ofDict (fs : List (String × PyVal)) : PyVal :=
  fs.foldr (fun kv t => PyVal.dictCons kv.1 kv.2 t) PyVal.dictNil

/-- Tests whether a value is a Python dict (isinstance(x, dict)). -/
def isPyDict : PyVal → Bool
  | .dictNil => true
  | .dictCons _ _ _ => true
  | _ => false

/-- Python d.get(key): the stored value for the first matching key, or None
when the key is absent or the value is not a dict.  A stored JSON null is
already the value `none`, matching Python where json.loads maps null to
None. -/
def dictGet : PyVal → String → PyVal
  | .dictCons k v t, key => if k == key then v else dictGet t key
  | _, _ => .none

/-- Python membership test (key in d) on a dict value. -/
def dictHasKey : PyVal → String → Bool
  | .dictCons k _ t, key => k == key || dictHasKey t key
  | _, _ => false

/-- Tests whether some stored value of a dict equals v; used to state the
claim about identifiers appearing among keyword arguments. -/
def dictHasValue : PyVal → PyVal → Bool
  | .dictCons _ w t, v => w == v || dictHasValue t v
  | _, _ => false

/-- Tests whether some element of a tuple equals v; used to state the claim
about identifiers appearing among positional arguments. -/
def tupleHasValue : PyVal → PyVal → Bool
  | .tupleCons h t, v => h == v || tupleHasValue t v
  | _, _ => false

/-- Python truthiness of a value (bool(x)): None, False, 0, empty string,
empty tuple and empty dict are falsy. -/
def PyVal.truthy : PyVal → Bool
  | .none => false
  | .bool b => b
  | .int n => n != 0
  | .str s => s != ""
  | .func _ => true
  | .tupleNil => false
  | .tupleCons _ _ => true
  | .dictNil => false
  | .dictCons _ _ _ => true

/-- One entry of Client.event_listeners: the tuple
(event_cb, event_obj, args, kwargs, as_task) appended by on_event.
The callback is an opaque function object identified by a Nat; args is a
tuple value and kwargs a dict value. -/
structure Listener where
  callback : Nat
  event_obj : PyVal
  args : PyVal
  kwargs : PyVal
  as_task : Bool
deriving DecidableEq

/-- Python membership test (x in item) on the 5-tuple stored in the listener
list: x is compared for equality against each component in order. -/
def Listener.containsVal (l : Listener) (v : PyVal) : Bool :=
  v == PyVal.func l.callback || v == l.event_obj || v == l.args ||
    v == l.kwargs || v == PyVal.bool l.as_task

/-- Client.event_listeners: a dict from event-type name to the list of
listener tuples, in insertion order of the keys. -/
abbrev Registry := List (String × List Listener)

/-- Dict lookup on the registry, with the empty list as default, modelling
self.event_listeners.get(event_type, []). -/
def regGet : Registry → String → List Listener
  | [], _ => []
  | (k, v) :: rest, t => if k == t then v else regGet rest t

/-- Dict store on the registry: overwrites the value at an existing key in
place, or appends a new key at the end, as Python dict assignment and
setdefault do. -/
def regSet : Registry → String → List Listener → Registry
  | [], t, l => [(t, l)]
  | (k, v) :: rest, t, l => if k == t then (t, l) :: rest else (k, v) :: regSet rest t l

/-- Semantics of the Python pattern
(for cb in listeners: if p(cb): listeners.remove(cb)) used by on_event:
the list iterator walks by index over the evolving list; list.remove
deletes the first occurrence equal to the scanned element, so after a
removal the element shifted into the current position is skipped.  The
fuel argument only bounds the number of iterations: every iteration either
advances the index or shortens the list, so l.length - i iterations always
suffice. -/
def pyForRemoveAux {α : Type} [DecidableEq α] (p : α → Bool) :
    Nat → List α → Nat → List α
  | 0, l, _ => l
  | fuel + 1, l, i =>
    if h : i < l.length then
      if p (l.get ⟨i, h⟩) then pyForRemoveAux p fuel (l.erase (l.get ⟨i, h⟩)) (i + 1)
      else pyForRemoveAux p fuel l (i + 1)
    else l

/-- The loop entered at index i on list l. -/
def pyForRemove {α : Type} [DecidableEq α] (p : α → Bool) (l : List α) (i : Nat) : List α :=
  pyForRemoveAux p (l.length - i) l i

/-- Client.on_event: ensures a (possibly empty) list exists for the event
type, removes any existing registration with the same callback while
iterating the list, then appends the new registration tuple. -/
def on_event (r : Registry) (event_type : String) (event_cb : Nat)
    (event_obj : PyVal) (as_task : Bool) (args : PyVal) (kwargs : PyVal) : Registry :=
  let listeners := regGet r event_type
  let pruned := pyForRemove (fun cb => event_cb == cb.callback) listeners 0
  regSet r event_type (pruned ++ [⟨event_cb, event_obj, args, kwargs, as_task⟩])

/-- Outcome of awaiting a coroutine or task: normal completion or an
exception carrying an error id. -/
inductive TaskOutcome where
  | ok
  | failed (e : Nat)
deriving DecidableEq

/-- Result of the synchronous call callback(msg, *args, **kwargs) inside
process_ws: a plain (non-awaitable) return value, a synchronously raised
exception, or an awaitable whose eventual outcome is recorded. -/
inductive CallResult where
  | value
  | raises (e : Nat)
  | coroutine (outcome : TaskOutcome)
deriving DecidableEq

/-- Behaviour of the caller-owned callbacks: given the callback id, the
message, the stored args and kwargs, and the current registry (callbacks
may register or unregister listeners), it returns the registry after the
synchronous part of the call together with the call result. -/
abbrev Env := Nat → PyVal → PyVal → PyVal → Registry → Registry × CallResult

/-- Observable state threaded through one process_ws dispatch: the registry,
the errors handed to self.exception_handler in order, the outcomes of
tasks spawned with asyncio.create_task, and the invocation trace
(callback id, message) in order. -/
structure DispatchState where
  registry : Registry
  handled : List Nat
  spawned : List TaskOutcome
  invoked : List (Nat × PyVal)
deriving DecidableEq

/-- Body of the per-listener loop in process_ws: unpack the tuple, call the
callback (args or () and kwargs or \x7b\x7d are identities here since args and
kwargs are stored as a tuple and a dict), then if the result is awaitable
either spawn it as a task (as_task) or await it inline; any exception of
the call or of the inline await is caught and passed to
self.exception_handler.  An exception inside a spawned task is not caught
here. -/
def invokeListener (env : Env) (msg : PyVal) (st : DispatchState) (l : Listener) : DispatchState :=
  let call := env l.callback msg l.args l.kwargs st.registry
  let st1 : DispatchState :=
    { registry := call.1, handled := st.handled, spawned := st.spawned,
      invoked := st.invoked ++ [(l.callback, msg)] }
  match call.2 with
  | .value => st1
  | .raises e => { st1 with handled := st1.handled ++ [e] }
  | .coroutine outcome =>
      if l.as_task then { st1 with spawned := st1.spawned ++ [outcome] }
      else
        match outcome with
        | .ok => st1
        | .failed e => { st1 with handled := st1.handled ++ [e] }

/-- The string value of the message type field, when it is a string. -/
def msgTypeStr (msg : PyVal) : Option String :=
  match dictGet msg "type" with
  | .str s => some s
  | _ => Option.none

/-- The listener snapshot built at the top of process_ws:
list(event_listeners.get(msg["type"], [])) + list(event_listeners.get("*", [])).
A non-string type value is found under no registered string key. -/
def resolveListeners (r : Registry) (msg : PyVal) : List Listener :=
  (match msgTypeStr msg with
   | some t => regGet r t
   | Option.none => []) ++ regGet r "*"

/-- The per-listener loop of process_ws: fold the listener body over the
snapshot, starting from the incoming registry with empty traces. -/
def dispatchListeners (env : Env) (r : Registry) (msg : PyVal) : DispatchState :=
  (resolveListeners r msg).foldl (invokeListener env msg) ⟨r, [], [], []⟩

/-- Evaluation of msg.get("channel").get("id") in the garbage-collection
pass: when the channel field is absent, null, or not a dict, the second
.get is attribute access on an object without a get method and raises
AttributeError. -/
def channelId (msg : PyVal) : Except String PyVal :=
  match dictGet msg "channel" with
  | .dictNil => .ok (dictGet PyVal.dictNil "id")
  | .dictCons k v t => .ok (dictGet (PyVal.dictCons k v t) "id")
  | _ => .error "AttributeError"

/-- Tests whether any event type currently has a registered listener: the
predicate of the garbage-collection pass is only evaluated (and hence
msg.get("channel").get("id") only computed) when some inner list is
non-empty. -/
def anyListenerRegistered (r : Registry) : Bool :=
  r.any (fun p => !p.2.isEmpty)

/-- Semantics of (for o in [item for item in lst if pred(item)]:
lst.remove(o)): the matching items are snapshotted first, then each is
removed from the live list by first-occurrence value equality. -/
def pyRemoveAll (ms : List Listener) (l : List Listener) : List Listener :=
  ms.foldl (fun acc o => acc.erase o) l

/-- One event type step of the garbage-collection pass over the listener
list of one event type. -/
def gcInner (cid : PyVal) (l : List Listener) : List Listener :=
  pyRemoveAll (l.filter (fun item => item.containsVal cid)) l

/-- The post-dispatch garbage-collection pass of process_ws: on a
ChannelDestroyed message, every event type list is scanned and entries
whose registration tuple contains the channel id are removed.  Evaluating
the id can raise (see channelId); nothing is evaluated when every list is
empty, because the comprehension body never runs. -/
def gcPass (msg : PyVal) (r : Registry) : Except String Registry :=
  if dictGet msg "type" == PyVal.str "ChannelDestroyed" then
    if anyListenerRegistered r then
      match channelId msg with
      | .error e => .error e
      | .ok cid => .ok (r.map (fun p => (p.1, gcInner cid p.2)))
    else .ok r
  else .ok r

/-- Client.process_ws: dispatch to the listener snapshot, then run the
garbage-collection pass on the resulting registry.  The second component
is the uncaught exception, if any, escaping process_ws. -/
def process_ws (env : Env) (r : Registry) (msg : PyVal) : DispatchState × Option String :=
  let st := dispatchListeners env r msg
  match gcPass msg st.registry with
  | .ok r2 => ({ st with registry := r2 }, Option.none)
  | .error e => (st, some e)

/-- Kind of a received websocket frame. -/
inductive WSKind where
  | closed
  | closing
  | text
  | binary
deriving DecidableEq

/-- One received websocket frame. -/
structure Frame where
  kind : WSKind
  data : String
deriving DecidableEq

/-- How the read loop of Client.__run ended: stream end (receive returned
None), a CLOSED or CLOSING frame, or an uncaught exception. -/
inductive RunOutcome where
  | eof
  | closedByPeer
  | errored (e : String)
deriving DecidableEq

/-- Validity check of Client.__run on a decoded payload:
not (not isinstance(msg_json, dict) or "type" not in msg_json). -/
def isValidEvent (m : PyVal) : Bool :=
  isPyDict m && dictHasKey m "type"

/-- Observable result of the read loop: final registry, how it ended, and
the messages handed to process_ws in order. -/
structure RunResult where
  registry : Registry
  outcome : RunOutcome
  dispatched : List PyVal
deriving DecidableEq

/-- Client.__run over a finite frame stream (the end of the list models
receive() returning None).  A CLOSED or CLOSING frame breaks the loop; a
non-text frame is logged and skipped; a text payload is given to
json.loads, which raises on unparseable input (uncaught, ending the loop);
a parsed value that is not a dict or lacks a type key is logged and
discarded; otherwise process_ws runs, and an exception escaping it ends
the loop. -/
def runLoop (parse : String → Option PyVal) (env : Env) (r : Registry) :
    List Frame → RunResult
  | [] => ⟨r, .eof, []⟩
  | f :: rest =>
    match f.kind with
    | .closed => ⟨r, .closedByPeer, []⟩
    | .closing => ⟨r, .closedByPeer, []⟩
    | .binary => runLoop parse env r rest
    | .text =>
      match parse f.data with
      | Option.none => ⟨r, .errored "json.decoder.JSONDecodeError", []⟩
      | some m =>
        if isValidEvent m then
          match process_ws env r m with
          | (st, some e) => ⟨st.registry, .errored e, []⟩
          | (st, Option.none) =>
            let res := runLoop parse env st.registry rest
            ⟨res.registry, res.outcome, m :: res.dispatched⟩
        else runLoop parse env r rest

/-- Environment of Client.close: the outcome of the best-effort DELETE
subscription request, the peername info of each websocket (Option.none
models get_extra_info returning None, making get_peer_info raise
TypeError), and the outcome of each ws.close() call. -/
structure CloseEnv where
  unsub : TaskOutcome
  peerInfo : Nat → Option (String × Nat)
  closeWs : Nat → TaskOutcome

/-- Observable state of Client.close: the tracked websocket set, the handles
whose close() completed, and whether swagger.close() ran. -/
structure CloseState where
  tracked : List Nat
  closedOk : List Nat
  swaggerClosed : Bool
deriving DecidableEq

/-- The per-handle loop of Client.close over the snapshot
list(self.websockets).  In both branches (peer info available, or
get_peer_info raising the caught TypeError) the handle is first removed
from the tracked set and then awaited closed; an exception from ws.close()
is not caught and aborts the loop. -/
def closeLoop (env : CloseEnv) : List Nat → CloseState → CloseState × Option Nat
  | [], st => (st, Option.none)
  | ws :: rest, st =>
    match env.peerInfo ws with
    | Option.none =>
      let st1 := { st with tracked := st.tracked.erase ws }
      match env.closeWs ws with
      | .failed e => (st1, some e)
      | .ok => closeLoop env rest { st1 with closedOk := st1.closedOk ++ [ws] }
    | some _ =>
      let st1 := { st with tracked := st.tracked.erase ws }
      match env.closeWs ws with
      | .failed e => (st1, some e)
      | .ok => closeLoop env rest { st1 with closedOk := st1.closedOk ++ [ws] }

/-- Client.close: the DELETE subscription request is wrapped in
try/except-pass, so env.unsub is ignored entirely; then the handle loop
runs over the snapshot of the tracked set; swagger.close() runs only if no
handle close raised. -/
def closeClient (env : CloseEnv) (websockets : List Nat) : CloseState × Option Nat :=
  match closeLoop env websockets ⟨websockets, [], false⟩ with
  | (st, some e) => (st, some e)
  | (st, Option.none) => ({ st with swaggerClosed := true }, Option.none)

/-- The field names of an event model whose declared type equals the target
model id, in schema order: the obj_fields list computed by
on_object_event at registration time.  The schema of one event type is a
list of (field name, declared type) pairs. -/
def obj_fields (props : List (String × String)) (model_id : String) : List String :=
  (props.filter (fun kv => kv.2 == model_id)).map (fun kv => kv.1)

/-- What extract_objects passes as first argument to the wrapped callback:
either a single optional domain object (single-field schema) or a dict
from field name to domain object. -/
inductive ExtractResult (α : Type) where
  | single (o : Option α)
  | mapping (m : List (String × α))
deriving DecidableEq

/-- The closure extract_objects defined inside on_object_event: build the
dict of factory results over the schema fields whose value in the event is
truthy (if event.get(obj_field)), then collapse to the single value, or
None when the dict is empty, exactly when the schema has one matching
field. -/
def extract_objects {α : Type} (factory : PyVal → α) (fields : List String)
    (event : PyVal) : ExtractResult α :=
  let obj := fields.filterMap (fun f =>
    if (dictGet event f).truthy then some (f, factory (dictGet event f)) else Option.none)
  if fields.length == 1 then
    match obj with
    | [] => .single Option.none
    | kv :: _ => .single (some kv.2)
  else .mapping obj

/-- Lookup of self.event_models.get(event_type): the swagger event models,
each a non-empty dict whose properties give the field types, so the falsy
test (if not event_model) is exactly the absence test. -/
def lookupModel (event_models : List (String × List (String × String)))
    (t : String) : Option (List (String × String)) :=
  match event_models.find? (fun p => p.1 == t) with
  | some p => some p.2
  | Option.none => Option.none

/-- Number of elements of a tuple value. -/
def tupleLen : PyVal → Nat
  | .tupleCons _ t => tupleLen t + 1
  | _ => 0

/-- First element of a tuple value (None on an empty or non-tuple value;
only used under a length guard). -/
def tupleHead : PyVal → PyVal
  | .tupleCons h _ => h
  | _ => .none

/-- Python dict.pop(key, None) as far as the remaining dict is concerned:
the entry of the (unique) matching key is dropped. -/
def dictRemove : PyVal → String → PyVal
  | .dictCons k v t, key => if k == key then t else .dictCons k v (dictRemove t key)
  | v, _ => v

/-- Python argument binding of the forwarding call
self.on_event(event_type, extract_objects, as_task=as_task, *args, **kwargs)
against the signature
on_event(self, event_type, event_cb, event_obj=None, as_task=False, *args, **kwargs).
The elements of args are positional arguments placed after extract_objects:
the first binds the event_obj parameter and a second would bind as_task,
colliding with the explicit as_task keyword; a keyword in kwargs named
after an already-bound parameter (self, event_type, event_cb, as_task, or
event_obj when a positional bound it) collides likewise; an event_obj
keyword with no positional extras binds the event_obj parameter and is
not forwarded.  Every collision raises TypeError (the exact message text
is not modelled).  On success the result is the bound event_obj, the
remaining positional tuple (always empty here) and the forwarded keyword
dict. -/
def bindForwardedOnEventCall (args : PyVal) (kwargs : PyVal) :
    Except String (PyVal × PyVal × PyVal) :=
  if dictHasKey kwargs "as_task" then Except.error "TypeError"
  else if 2 ≤ tupleLen args then Except.error "TypeError"
  else if dictHasKey kwargs "self" || dictHasKey kwargs "event_type"
      || dictHasKey kwargs "event_cb" then Except.error "TypeError"
  else if tupleLen args == 1 then
    if dictHasKey kwargs "event_obj" then Except.error "TypeError"
    else Except.ok (tupleHead args, PyVal.tupleNil, kwargs)
  else
    if dictHasKey kwargs "event_obj" then
      Except.ok (dictGet kwargs "event_obj", PyVal.tupleNil, dictRemove kwargs "event_obj")
    else Except.ok (PyVal.none, PyVal.tupleNil, kwargs)

/-- Client.on_object_event: raises ValueError (registry unchanged) when the
event type is not among the event models or when no field of the model
has the target type; otherwise forwards to on_event, where the argument
binding of the forwarding call can itself raise TypeError (registry again
unchanged); on successful binding the extract_objects closure
(represented by the fresh callback id cbId) is registered.  The second
component is the raised error, if any. -/
def on_object_event (event_models : List (String × List (String × String)))
    (r : Registry) (event_type : String) (cbId : Nat) (model_id : String)
    (as_task : Bool) (args : PyVal) (kwargs : PyVal) : Registry × Option String :=
  match lookupModel event_models event_type with
  | Option.none => (r, some "ValueError: Cannot find event model")
  | some props =>
    let fields := obj_fields props model_id
    if fields.isEmpty then (r, some "ValueError: event model has no fields of this type")
    else
      match bindForwardedOnEventCall args kwargs with
      | Except.error e => (r, some e)
      | Except.ok (eo, fwdArgs, fwdKwargs) =>
        (on_event r event_type cbId eo as_task fwdArgs fwdKwargs, Option.none)

/-! Supporting lemmas. -/

section RemoveLoop

variable {α : Type} [DecidableEq α]

omit [DecidableEq α] in
/-- A member of a list of length at most one is its only element. -/
theorem eq_singleton_of_mem_length_le_one {a : α} {m : List α} (ha : a ∈ m)
    (h : m.length ≤ 1) : m = [a] := by
  match m with
  | [] => cases ha
  | [b] =>
    have : a = b := by simpa using ha
    simp [this]
  | b :: c :: t => simp at h

/-- Erasing the unique element satisfying p is filtering p away. -/
theorem erase_eq_filter_not {p : α → Bool} {x : α} {l : List α}
    (h : l.filter p = [x]) : l.erase x = l.filter (fun y => !p y) := by
  induction l with
  | nil => simp at h
  | cons a t ih =>
    by_cases hpa : p a
    · rw [List.filter_cons_of_pos hpa] at h
      have h1 : a = x ∧ t.filter p = [] := by simpa using h
      obtain ⟨h1, h2⟩ := h1
      subst h1
      rw [List.erase_cons_head, List.filter_cons_of_neg (by simp [hpa])]
      exact (List.filter_eq_self.mpr fun y hy => by
        have := List.filter_eq_nil_iff.mp h2 y hy
        simp [this]).symm
    · rw [List.filter_cons_of_neg hpa] at h
      have hpx : p x = true :=
        (List.mem_filter.mp (by rw [h]; exact List.mem_singleton_self x)).2
      have hax : ¬(a == x) = true := by
        simp only [beq_iff_eq]
        intro he
        rw [he, hpx] at hpa
        exact hpa rfl
      rw [List.erase_cons_tail hax, List.filter_cons_of_pos (by simp [hpa])]
      rw [ih h]

/-- The removal loop leaves a list without matching elements unchanged. -/
theorem pyForRemoveAux_no_match {p : α → Bool} :
    ∀ (fuel : Nat) (l : List α) (i : Nat), (∀ x ∈ l, p x = false) →
      pyForRemoveAux p fuel l i = l := by
  intro fuel
  induction fuel with
  | zero => intro l i _; rfl
  | succ fuel ih =>
    intro l i h
    rw [pyForRemoveAux]
    split
    · next hlt =>
      rw [h (l.get ⟨i, hlt⟩) (l.get_mem _ _)]
      rw [if_neg Bool.false_ne_true]
      exact ih l (i + 1) h
    · rfl

/-- When at most one element matches p and no element before the current
index matches, the removal loop computes exactly the filter that drops
the matching elements. -/
theorem pyForRemoveAux_eq_filter {p : α → Bool} :
    ∀ (fuel : Nat) (l : List α) (i : Nat),
      (l.filter p).length ≤ 1 →
      (∀ x ∈ l.take i, p x = false) →
      l.length - i ≤ fuel →
      pyForRemoveAux p fuel l i = l.filter (fun x => !p x) := by
  intro fuel
  induction fuel with
  | zero =>
    intro l i _ h2 hf
    have htake : l.take i = l := List.take_of_length_le (by omega)
    have hall : ∀ x ∈ l, p x = false := fun x hx => h2 x (by rw [htake]; exact hx)
    have heq : l.filter (fun x => !p x) = l :=
      List.filter_eq_self.mpr fun a ha => by simp [hall a ha]
    rw [heq]; rfl
  | succ fuel ih =>
    intro l i h1 h2 hf
    rw [pyForRemoveAux]
    split
    · next hlt =>
      by_cases hpx : p (l.get ⟨i, hlt⟩) = true
      · rw [if_pos hpx]
        have hx : l.get ⟨i, hlt⟩ ∈ l := l.get_mem _ _
        have hmem : l.get ⟨i, hlt⟩ ∈ l.filter p := List.mem_filter.mpr ⟨hx, hpx⟩
        have hfil : l.filter p = [l.get ⟨i, hlt⟩] :=
          eq_singleton_of_mem_length_le_one hmem h1
        have herase := erase_eq_filter_not hfil
        have hnone : ∀ y ∈ l.erase (l.get ⟨i, hlt⟩), p y = false := by
          intro y hy
          rw [herase] at hy
          have := (List.mem_filter.mp hy).2
          simpa using this
        rw [pyForRemoveAux_no_match fuel _ (i + 1) hnone, herase]
      · rw [if_neg hpx]
        apply ih l (i + 1) h1 _ (by omega)
        intro x hx
        rw [List.take_succ] at hx
        rcases List.mem_append.mp hx with hx' | hx'
        · exact h2 x hx'
        · have : x = l.get ⟨i, hlt⟩ := by
            rw [List.getElem?_eq_getElem hlt] at hx'
            simpa using hx'
          rw [this]
          simpa using hpx
    · next hge =>
      have htake : l.take i = l := List.take_of_length_le (by omega)
      have hall : ∀ x ∈ l, p x = false := fun x hx => h2 x (by rw [htake]; exact hx)
      exact (List.filter_eq_self.mpr fun a ha => by simp [hall a ha]).symm

/-- The loop of on_event: when at most one registration matches, the loop
removes exactly the matching entries in place. -/
theorem pyForRemove_eq_filter {p : α → Bool} (l : List α)
    (h : (l.filter p).length ≤ 1) :
    pyForRemove p l 0 = l.filter (fun x => !p x) :=
  pyForRemoveAux_eq_filter _ l 0 h (by simp) (by omega)

end RemoveLoop

/-- Reading back the key just stored. -/
theorem regGet_regSet_self (r : Registry) (t : String) (l : List Listener) :
    regGet (regSet r t l) t = l := by
  induction r with
  | nil => simp [regSet, regGet]
  | cons hd tl ih =>
    obtain ⟨k, v⟩ := hd
    by_cases hk : k == t
    · simp [regSet, hk, regGet]
    · simp [regSet, hk, regGet, ih]

/-- Other keys are untouched by a store. -/
theorem regGet_regSet_ne (r : Registry) (t t' : String) (l : List Listener)
    (h : (t' == t) = false) : regGet (regSet r t l) t' = regGet r t' := by
  have hne : t' ≠ t := by simpa using h
  have h1 : (t == t') = false := beq_eq_false_iff_ne.mpr fun he => hne he.symm
  induction r with
  | nil => simp [regSet, regGet, h1]
  | cons hd tl ih =>
    obtain ⟨k, v⟩ := hd
    by_cases hk : k == t
    · have hkt : k = t := by simpa using hk
      have h2 : (k == t') = false := by rw [hkt]; exact h1
      simp [regSet, hk, regGet, h1, h2]
    · simp [regSet, hk, regGet, ih]

/-- Removing the snapshot of matching entries one by one by first-occurrence
equality keeps a non-matching head. -/
theorem foldl_erase_cons (ms : List Listener) (x : Listener) (t : List Listener)
    (h : ∀ a ∈ ms, a ≠ x) :
    ms.foldl (fun acc o => acc.erase o) (x :: t)
      = x :: ms.foldl (fun acc o => acc.erase o) t := by
  induction ms generalizing t with
  | nil => rfl
  | cons a ms ih =>
    have hax : ¬(x == a) = true := by
      simp only [beq_iff_eq]
      intro he
      exact h a (List.mem_cons_self a ms) he.symm
    simp only [List.foldl_cons]
    rw [List.erase_cons_tail hax]
    exact ih (t.erase a) fun b hb => h b (List.mem_cons_of_mem a hb)

/-- The garbage-collection step on one listener list removes exactly the
entries whose tuple contains the channel id: the snapshot-then-remove loop
is the filter dropping them. -/
theorem gcInner_eq_filter (cid : PyVal) (l : List Listener) :
    gcInner cid l = l.filter (fun x => ! x.containsVal cid) := by
  induction l with
  | nil => rfl
  | cons a t ih =>
    unfold gcInner pyRemoveAll at ih ⊢
    by_cases hpa : a.containsVal cid
    · rw [show List.filter (fun item => item.containsVal cid) (a :: t)
            = a :: List.filter (fun item => item.containsVal cid) t from
          List.filter_cons_of_pos hpa]
      rw [show List.filter (fun x => !x.containsVal cid) (a :: t)
            = List.filter (fun x => !x.containsVal cid) t from
          List.filter_cons_of_neg (by simp [hpa])]
      simp only [List.foldl_cons]
      rw [List.erase_cons_head]
      exact ih
    · rw [show List.filter (fun item => item.containsVal cid) (a :: t)
            = List.filter (fun item => item.containsVal cid) t from
          List.filter_cons_of_neg hpa]
      rw [show List.filter (fun x => !x.containsVal cid) (a :: t)
            = a :: List.filter (fun x => !x.containsVal cid) t from
          List.filter_cons_of_pos (by simp [hpa])]
      rw [foldl_erase_cons _ a t fun b hb => by
        have hb2 := (List.mem_filter.mp hb).2
        intro he
        rw [he] at hb2
        exact hpa hb2]
      rw [ih]

/-- Mapping a value transformation with f [] = [] over the registry commutes
with lookup. -/
theorem regGet_map_values (r : Registry) (f : List Listener → List Listener)
    (hf : f [] = []) (t : String) :
    regGet (r.map (fun p => (p.1, f p.2))) t = f (regGet r t) := by
  induction r with
  | nil => simp [regGet, hf]
  | cons hd tl ih =>
    obtain ⟨k, v⟩ := hd
    by_cases hk : k == t
    · simp [regGet, hk]
    · simp [regGet, hk, ih]

/-- When no event type has a listener, every lookup is empty. -/
theorem regGet_eq_nil_of_no_listener {r : Registry}
    (h : anyListenerRegistered r = false) : ∀ t, regGet r t = [] := by
  induction r with
  | nil => intro t; rfl
  | cons hd tl ih =>
    intro t
    obtain ⟨k, v⟩ := hd
    unfold anyListenerRegistered at h
    simp only [List.any_cons, Bool.or_eq_false_iff, Bool.not_eq_false'] at h
    obtain ⟨h1, h2⟩ := h
    have hv : v = [] := by
      cases v with
      | nil => rfl
      | cons a t => simp at h1
    by_cases hk : k == t
    · simp [regGet, hk, hv]
    · simp only [regGet]
      rw [if_neg (by simpa using hk)]
      exact ih h2 t

/-- The garbage-collection pass on a ChannelDestroyed message whose channel
id evaluates to x filters every listener list by tuple membership of x. -/
theorem gcPass_regGet {msg x : PyVal} {r r2 : Registry}
    (htype : dictGet msg "type" = PyVal.str "ChannelDestroyed")
    (hid : channelId msg = Except.ok x)
    (hok : gcPass msg r = Except.ok r2) :
    ∀ t, regGet r2 t = (regGet r t).filter (fun l => ! l.containsVal x) := by
  intro t
  unfold gcPass at hok
  rw [htype] at hok
  simp only [beq_self_eq_true, if_true] at hok
  by_cases hany : anyListenerRegistered r
  · rw [if_pos hany, hid] at hok
    have hr2 : r2 = r.map (fun p => (p.1, gcInner x p.2)) := by
      injection hok with h
      exact h.symm
    rw [hr2, regGet_map_values r (gcInner x) rfl t, gcInner_eq_filter]
  · rw [if_neg hany] at hok
    have hr2 : r2 = r := by
      injection hok with h
      exact h.symm
    have hnil := regGet_eq_nil_of_no_listener (by simpa using hany) t
    rw [hr2, hnil]
    rfl

/-- Every branch of the listener body records exactly one invocation. -/
theorem invokeListener_invoked (env : Env) (msg : PyVal) (st : DispatchState)
    (l : Listener) :
    (invokeListener env msg st l).invoked = st.invoked ++ [(l.callback, msg)] := by
  cases hres : (env l.callback msg l.args l.kwargs st.registry).2 with
  | value => simp [invokeListener, hres]
  | raises e => simp [invokeListener, hres]
  | coroutine o =>
    by_cases h : l.as_task
    · simp [invokeListener, hres, h]
    · cases o with
      | ok => simp [invokeListener, hres, h]
      | failed e => simp [invokeListener, hres, h]

/-- The list of errors seen by the exception handler only grows during the
listener loop. -/
theorem invokeListener_handled_mono (env : Env) (msg : PyVal) (st : DispatchState)
    (l : Listener) :
    ∃ tail, (invokeListener env msg st l).handled = st.handled ++ tail := by
  cases hres : (env l.callback msg l.args l.kwargs st.registry).2 with
  | value => exact ⟨[], by simp [invokeListener, hres]⟩
  | raises e => exact ⟨[e], by simp [invokeListener, hres]⟩
  | coroutine o =>
    by_cases h : l.as_task
    · exact ⟨[], by simp [invokeListener, hres, h]⟩
    · cases o with
      | ok => exact ⟨[], by simp [invokeListener, hres, h]⟩
      | failed e => exact ⟨[e], by simp [invokeListener, hres, h]⟩

/-- The invocation trace of the listener loop is determined by the snapshot
being folded over, one entry per listener in order, whatever the callbacks
do to the registry. -/
theorem foldl_invoked (env : Env) (msg : PyVal) (ls : List Listener)
    (st : DispatchState) :
    (ls.foldl (invokeListener env msg) st).invoked
      = st.invoked ++ ls.map (fun l => (l.callback, msg)) := by
  induction ls generalizing st with
  | nil => simp
  | cons a ls ih =>
    simp only [List.foldl_cons, List.map_cons]
    rw [ih, invokeListener_invoked]
    simp

/-- An error already handed to the exception handler stays recorded for the
rest of the listener loop. -/
theorem foldl_handled_mem (env : Env) (msg : PyVal) (ls : List Listener)
    (st : DispatchState) (x : Nat) (hx : x ∈ st.handled) :
    x ∈ (ls.foldl (invokeListener env msg) st).handled := by
  induction ls generalizing st with
  | nil => exact hx
  | cons a ls ih =>
    simp only [List.foldl_cons]
    apply ih
    obtain ⟨tail, htail⟩ := invokeListener_handled_mono env msg st a
    rw [htail]
    exact List.mem_append.mpr (Or.inl hx)

/-- Decidable equality of Except values, used to evaluate channelId on
concrete messages. -/
instance {ε α : Type} [DecidableEq ε] [DecidableEq α] :
    DecidableEq (Except ε α) := fun a b =>
  match a, b with
  | .ok x, .ok y =>
    match decEq x y with
    | isTrue h => isTrue (congrArg Except.ok h)
    | isFalse h => isFalse fun hc => h (Except.ok.inj hc)
  | .error x, .error y =>
    match decEq x y with
    | isTrue h => isTrue (congrArg Except.error h)
    | isFalse h => isFalse fun hc => h (Except.error.inj hc)
  | .ok _, .error _ => isFalse fun hc => Except.noConfusion hc
  | .error _, .ok _ => isFalse fun hc => Except.noConfusion hc

/-! Concrete inputs used by counterexamples and witnesses. -/

/-- A callback environment whose callbacks return a plain value and leave
the registry unchanged. -/
def trivialEnv : Env := fun _ _ _ _ reg => (reg, CallResult.value)

/-- A listener whose keyword arguments contain the channel id "42" as a
value. -/
def kwListener : Listener :=
  ⟨0, PyVal.none, PyVal.tupleNil, PyVal.ofDict [("channel_id", PyVal.str "42")], false⟩

/-- A registry with only the keyword-argument listener, registered for
StasisStart. -/
def kwRegistry : Registry := [("StasisStart", [kwListener])]

/-- The ChannelDestroyed message for channel id "42". -/
def destroyedMsg : PyVal :=
  PyVal.ofDict [("type", PyVal.str "ChannelDestroyed"),
                ("channel", PyVal.ofDict [("id", PyVal.str "42")])]

/-- A listener whose event_obj component is the channel id itself. -/
def objListener : Listener :=
  ⟨1, PyVal.str "42", PyVal.tupleNil, PyVal.dictNil, false⟩

/-- A registry holding one listener that the garbage collection removes and
one that it keeps. -/
def mixedRegistry : Registry := [("E", [objListener, kwListener])]

/-! Claim C1. -/

/-- C1, counterexample: the listener registered for StasisStart carries the
channel id "42" among its keyword-argument values; the ChannelDestroyed
message for id "42" is dispatched without error, and the listener
nevertheless survives the garbage-collection pass, because the pass tests
tuple membership of the id, not membership inside the argument
collections. -/
theorem c1_counterexample :
    dictHasValue kwListener.kwargs (PyVal.str "42") = true ∧
    (process_ws trivialEnv kwRegistry destroyedMsg).2 = Option.none ∧
    regGet (process_ws trivialEnv kwRegistry destroyedMsg).1.registry "StasisStart"
      = [kwListener] := by
  refine ⟨by decide, by decide, by decide⟩

/-- C1, amended: after a successfully dispatched ChannelDestroyed message
whose channel id evaluates to x, every event type list equals its
post-dispatch state filtered by Python tuple membership of x: a
registration is removed exactly when x equals its callback object, its
event_obj, its whole args tuple, its whole kwargs dict, or its as_task
flag, and every other registration is left unchanged. -/
theorem c1_gc_removes_tuple_matches (env : Env) (r : Registry) (msg x : PyVal)
    (st : DispatchState)
    (htype : dictGet msg "type" = PyVal.str "ChannelDestroyed")
    (hid : channelId msg = Except.ok x)
    (hrun : process_ws env r msg = (st, Option.none)) :
    ∀ t, regGet st.registry t
      = (regGet (dispatchListeners env r msg).registry t).filter
          (fun l => ! l.containsVal x) := by
  cases hgc : gcPass msg (dispatchListeners env r msg).registry with
  | error e =>
    have hpw : process_ws env r msg = (dispatchListeners env r msg, some e) := by
      simp only [process_ws]
      rw [hgc]
    rw [hpw] at hrun
    simp at hrun
  | ok r2 =>
    have hpw : process_ws env r msg
        = ({dispatchListeners env r msg with registry := r2}, Option.none) := by
      simp only [process_ws]
      rw [hgc]
    rw [hpw] at hrun
    have hst : st = {dispatchListeners env r msg with registry := r2} := by
      have h1 := congrArg Prod.fst hrun
      simpa using h1.symm
    rw [hst]
    intro t
    simpa using gcPass_regGet htype hid hgc t

/-- C1, witness for the amended statement at a concrete input: the
ChannelDestroyed message for id "42" removes the listener whose event_obj
is the id and keeps the listener whose kwargs contain it. -/
theorem c1_witness :
    regGet (process_ws trivialEnv mixedRegistry destroyedMsg).1.registry "E"
      = (regGet (dispatchListeners trivialEnv mixedRegistry destroyedMsg).registry "E").filter
          (fun l => ! l.containsVal (PyVal.str "42")) :=
  c1_gc_removes_tuple_matches trivialEnv mixedRegistry destroyedMsg (PyVal.str "42")
    (process_ws trivialEnv mixedRegistry destroyedMsg).1
    (by decide) (by decide) (by decide) "E"

/-! Claim C2. -/

/-- A parse function standing for json.loads on the payloads used in the
concrete read-loop scenarios. -/
def exampleParse : String → Option PyVal :=
  fun s =>
    if s == "good" then some (PyVal.ofDict [("type", PyVal.str "X")])
    else if s == "nonobj" then some (PyVal.int 5)
    else Option.none

/-- C2, counterexample: a text frame whose payload is not parseable as JSON
terminates the read loop with an uncaught decode error; the following
well-formed frame is never dispatched, contradicting the claim that no
such frame causes the read loop to terminate. -/
theorem c2_counterexample :
    runLoop exampleParse trivialEnv [] [⟨WSKind.text, "bad"⟩, ⟨WSKind.text, "good"⟩]
      = ⟨[], RunOutcome.errored "json.decoder.JSONDecodeError", []⟩ := by
  decide

/-- C2, amended: a text frame whose payload parses to a non-object, or to an
object lacking a type field, is logged and discarded and the read loop
continues with the next frame; but a text frame whose payload is not
parseable as JSON raises an uncaught decode error that terminates the
read loop and surfaces to the caller. -/
theorem c2_malformed_frames (parse : String → Option PyVal) (env : Env)
    (r : Registry) (f : Frame) (rest : List Frame)
    (hf : f.kind = WSKind.text) :
    (∀ m, parse f.data = some m → isValidEvent m = false →
      runLoop parse env r (f :: rest) = runLoop parse env r rest) ∧
    (parse f.data = Option.none →
      runLoop parse env r (f :: rest)
        = ⟨r, RunOutcome.errored "json.decoder.JSONDecodeError", []⟩) := by
  obtain ⟨kind, d⟩ := f
  simp only at hf
  subst hf
  constructor
  · intro m hm hv
    simp [runLoop, hm, hv]
  · intro hm
    simp [runLoop, hm]

/-- C2, witness: a frame parsing to a non-object is discarded and the loop
continues with the rest of the stream. -/
theorem c2_witness :
    runLoop exampleParse trivialEnv [] [⟨WSKind.text, "nonobj"⟩, ⟨WSKind.text, "good"⟩]
      = runLoop exampleParse trivialEnv [] [⟨WSKind.text, "good"⟩] :=
  (c2_malformed_frames exampleParse trivialEnv [] ⟨WSKind.text, "nonobj"⟩
    [⟨WSKind.text, "good"⟩] rfl).1 (PyVal.int 5) (by decide) (by decide)

/-! Claim C3. -/

/-- A shutdown environment in which closing websocket 1 raises. -/
def failingCloseEnv : CloseEnv :=
  ⟨TaskOutcome.failed 1, fun _ => some ("host", 1),
   fun ws => if ws == 1 then TaskOutcome.failed 9 else TaskOutcome.ok⟩

/-- C3, counterexample: when closing the first tracked handle raises, close
aborts with that exception: the second handle is neither closed nor
removed from the tracked set, and the swagger session is not released,
contradicting the claim that close completes regardless of per-handle
failures. -/
theorem c3_counterexample :
    closeClient failingCloseEnv [1, 2] = (⟨[2], [], false⟩, some 9) := by
  decide

/-- Removing every element of a list from itself, in order and by first
occurrence, empties it. -/
theorem foldl_erase_self (l : List Nat) :
    l.foldl (fun acc a => acc.erase a) l = [] := by
  induction l with
  | nil => rfl
  | cons a t ih =>
    simp only [List.foldl_cons, List.erase_cons_head]
    exact ih

/-- The handle loop closes every handle and removes it from the tracked set
when no close call raises. -/
theorem closeLoop_ok (env : CloseEnv) (l : List Nat) :
    ∀ st : CloseState, (∀ ws ∈ l, env.closeWs ws = TaskOutcome.ok) →
      closeLoop env l st
        = (⟨l.foldl (fun acc a => acc.erase a) st.tracked,
            st.closedOk ++ l, st.swaggerClosed⟩, Option.none) := by
  induction l with
  | nil => intro st _; simp [closeLoop]
  | cons ws rest ih =>
    intro st h
    have hws := h ws (List.mem_cons_self _ _)
    have hrest : ∀ b ∈ rest, env.closeWs b = TaskOutcome.ok :=
      fun b hb => h b (List.mem_cons_of_mem _ hb)
    cases hpi : env.peerInfo ws with
    | none =>
      simp only [closeLoop, hpi, hws]
      rw [ih _ hrest]
      simp
    | some info =>
      simp only [closeLoop, hpi, hws]
      rw [ih _ hrest]
      simp

/-- The handle loop never inspects the outcome of the unsubscribe request. -/
theorem closeLoop_unsub_irrelevant (u : TaskOutcome) (env : CloseEnv)
    (l : List Nat) : ∀ st,
    closeLoop ⟨u, env.peerInfo, env.closeWs⟩ l st = closeLoop env l st := by
  induction l with
  | nil => intro st; rfl
  | cons ws rest ih =>
    intro st
    cases hpi : env.peerInfo ws with
    | none =>
      cases hcw : env.closeWs ws with
      | failed e => simp [closeLoop, hpi, hcw]
      | ok => simp [closeLoop, hpi, hcw, ih]
    | some info =>
      cases hcw : env.closeWs ws with
      | failed e => simp [closeLoop, hpi, hcw]
      | ok => simp [closeLoop, hpi, hcw, ih]

/-- C3, amended: the outcome of the best-effort unsubscribe request never
influences close, and when no individual ws.close() raises, close closes
and untracks every handle and releases the swagger session; but an
exception from one ws.close() propagates out of close, leaving the
remaining handles tracked and unclosed and the session unreleased (see
the counterexample). -/
theorem c3_close_unsub_ignored_and_ok (env : CloseEnv) (websockets : List Nat)
    (hok : ∀ ws ∈ websockets, env.closeWs ws = TaskOutcome.ok) :
    closeClient env websockets = (⟨[], websockets, true⟩, Option.none) ∧
    ∀ u, closeClient ⟨u, env.peerInfo, env.closeWs⟩ websockets
        = closeClient env websockets := by
  constructor
  · unfold closeClient
    rw [closeLoop_ok env websockets ⟨websockets, [], false⟩ hok]
    simp [foldl_erase_self]
  · intro u
    unfold closeClient
    rw [closeLoop_unsub_irrelevant]

/-- A shutdown environment in which every close call succeeds. -/
def okCloseEnv : CloseEnv :=
  ⟨TaskOutcome.failed 1, fun _ => some ("host", 1), fun _ => TaskOutcome.ok⟩

/-- C3, witness: a clean shutdown of two handles under an environment whose
unsubscribe request raised. -/
theorem c3_witness :
    closeClient okCloseEnv [1, 2] = (⟨[], [1, 2], true⟩, Option.none) ∧
    ∀ u, closeClient ⟨u, okCloseEnv.peerInfo, okCloseEnv.closeWs⟩ [1, 2]
        = closeClient okCloseEnv [1, 2] :=
  c3_close_unsub_ignored_and_ok okCloseEnv [1, 2] (by decide)

/-! Claim C4. -/

/-- An environment whose callbacks return a coroutine that fails with error
7 when run. -/
def detachedEnv : Env :=
  fun _ _ _ _ reg => (reg, CallResult.coroutine (TaskOutcome.failed 7))

/-- A listener registered with as_task set. -/
def detachedListener : Listener := ⟨3, PyVal.none, PyVal.tupleNil, PyVal.dictNil, true⟩

/-- The registry holding only the detached listener for event type Ev. -/
def detachedRegistry : Registry := [("Ev", [detachedListener])]

/-- An event message of type Ev. -/
def evMsg : PyVal := PyVal.ofDict [("type", PyVal.str "Ev")]

/-- C4, counterexample: a detached listener whose coroutine fails with error
7 leaves the exception handler trace empty; the error is only the outcome
of the spawned task, contradicting the claim that it is handed to the
process-wide failure handler. -/
theorem c4_counterexample :
    detachedListener.as_task = true ∧
    (process_ws detachedEnv detachedRegistry evMsg).1.handled = [] ∧
    (process_ws detachedEnv detachedRegistry evMsg).1.spawned
      = [TaskOutcome.failed 7] := by
  refine ⟨rfl, by decide, by decide⟩

/-- C4, amended: for a listener registered with as_task, only an error
raised synchronously by the callback call itself is handed to the failure
handler; once the returned coroutine is scheduled as a task, an error
arising during its execution is not handed to the handler and is only
recorded as the outcome of the spawned task. -/
theorem c4_detached_error_unobserved (env : Env) (msg : PyVal)
    (st : DispatchState) (l : Listener) (htask : l.as_task = true) :
    (∀ e, (env l.callback msg l.args l.kwargs st.registry).2 = CallResult.raises e →
      (invokeListener env msg st l).handled = st.handled ++ [e]) ∧
    (∀ o, (env l.callback msg l.args l.kwargs st.registry).2 = CallResult.coroutine o →
      (invokeListener env msg st l).handled = st.handled ∧
      (invokeListener env msg st l).spawned = st.spawned ++ [o]) := by
  constructor
  · intro e he
    simp [invokeListener, he]
  · intro o ho
    constructor
    · simp [invokeListener, ho, htask]
    · simp [invokeListener, ho, htask]

/-- C4, witness: the failing coroutine of the detached listener leaves the
handled trace unchanged and lands in the spawned-task outcomes. -/
theorem c4_witness :
    (invokeListener detachedEnv evMsg ⟨detachedRegistry, [], [], []⟩ detachedListener).handled
      = [] ∧
    (invokeListener detachedEnv evMsg ⟨detachedRegistry, [], [], []⟩ detachedListener).spawned
      = [] ++ [TaskOutcome.failed 7] :=
  (c4_detached_error_unobserved detachedEnv evMsg ⟨detachedRegistry, [], [], []⟩
    detachedListener rfl).2 (TaskOutcome.failed 7) rfl

/-! Claim C5. -/

/-- C5: in any split of the dispatch snapshot around a listener whose
invocation fails, either by raising synchronously or by an inline awaited
coroutine failing, the error is passed to the exception handler and every
later listener of the snapshot is still invoked with the same message;
dispatchListeners is total, so no listener failure escapes into the read
loop. -/
theorem c5_listener_isolation (env : Env) (r : Registry) (msg : PyVal)
    (pre post : List Listener) (l : Listener) (e : Nat)
    (hsplit : resolveListeners r msg = pre ++ l :: post)
    (herr :
      (env l.callback msg l.args l.kwargs
        (pre.foldl (invokeListener env msg) ⟨r, [], [], []⟩).registry).2
          = CallResult.raises e ∨
      ((env l.callback msg l.args l.kwargs
        (pre.foldl (invokeListener env msg) ⟨r, [], [], []⟩).registry).2
          = CallResult.coroutine (TaskOutcome.failed e) ∧ l.as_task = false)) :
    e ∈ (dispatchListeners env r msg).handled ∧
    ∀ l2 ∈ post, (l2.callback, msg) ∈ (dispatchListeners env r msg).invoked := by
  have hd : dispatchListeners env r msg
      = (l :: post).foldl (invokeListener env msg)
          (pre.foldl (invokeListener env msg) ⟨r, [], [], []⟩) := by
    unfold dispatchListeners
    rw [hsplit, List.foldl_append]
  constructor
  · rw [hd]
    simp only [List.foldl_cons]
    apply foldl_handled_mem
    rcases herr with he | ⟨he, htask⟩
    · simp [invokeListener, he]
    · simp [invokeListener, he, htask]
  · intro l2 hl2
    rw [hd]
    simp only [List.foldl_cons]
    rw [foldl_invoked]
    refine List.mem_append.mpr (Or.inr ?_)
    exact List.mem_map.mpr ⟨l2, hl2, rfl⟩

/-- An environment in which callback 10 raises error 5 and every other
callback returns normally. -/
def raisingEnv : Env :=
  fun cb _ _ _ reg =>
    (reg, if cb == 10 then CallResult.raises 5 else CallResult.value)

/-- The listener whose callback raises. -/
def raisingListener : Listener := ⟨10, PyVal.none, PyVal.tupleNil, PyVal.dictNil, false⟩

/-- A second, independently registered listener for the same event type. -/
def secondListener : Listener := ⟨11, PyVal.none, PyVal.tupleNil, PyVal.dictNil, false⟩

/-- Both listeners registered for event type T, the raising one first. -/
def twoListenerRegistry : Registry := [("T", [raisingListener, secondListener])]

/-- An event message of type T. -/
def tMsg : PyVal := PyVal.ofDict [("type", PyVal.str "T")]

/-- C5, witness: the raising first listener does not prevent the second one
from being invoked, and its error reaches the handler. -/
theorem c5_witness :
    5 ∈ (dispatchListeners raisingEnv twoListenerRegistry tMsg).handled ∧
    ∀ l2 ∈ [secondListener],
      (l2.callback, tMsg) ∈ (dispatchListeners raisingEnv twoListenerRegistry tMsg).invoked :=
  c5_listener_isolation raisingEnv twoListenerRegistry tMsg [] [secondListener]
    raisingListener 5 (by decide) (Or.inl (by decide))

/-! Claim C6. -/

/-- An event whose channel field is present and non-null but falsy: the
empty dict. -/
def emptyChannelEvent : PyVal :=
  PyVal.ofDict [("type", PyVal.str "E"), ("channel", PyVal.dictNil)]

/-- C6, counterexample: for a single-field schema, a field that is present
and non-null in the message but falsy (the empty object) yields None
rather than the factory-built object: the extractor tests truthiness, not
presence and non-nullness. -/
theorem c6_counterexample :
    dictGet emptyChannelEvent "channel" = PyVal.dictNil ∧
    PyVal.dictNil ≠ PyVal.none ∧
    extract_objects (fun v => v) ["channel"] emptyChannelEvent
      = ExtractResult.single Option.none := by
  refine ⟨by decide, by decide, by decide⟩

/-- Building the extraction dict is mapping the factory over the truthy
schema fields. -/
theorem filterMap_truthy_eq {α : Type} (factory : PyVal → α) (event : PyVal)
    (fields : List String) :
    fields.filterMap (fun f =>
        if (dictGet event f).truthy then some (f, factory (dictGet event f))
        else Option.none)
      = (fields.filter (fun f => (dictGet event f).truthy)).map
          (fun f => (f, factory (dictGet event f))) := by
  induction fields with
  | nil => rfl
  | cons a t ih =>
    by_cases h : (dictGet event a).truthy
    · simp [List.filterMap_cons, h, ih]
    · simp [List.filterMap_cons, h, ih]

/-- C6, amended: the collapse decision depends only on the schema: a schema
with exactly one matching field always yields a single value, namely the
factory applied to the field value when that value is truthy and None
when the field is absent or falsy (null, false, zero, empty string or
empty container); a schema with more than one matching field always
yields the name-to-object mapping over the truthy fields of the message,
even when only one or none of them is present. -/
theorem c6_extract_objects_schema_collapse {α : Type} (factory : PyVal → α)
    (fields : List String) (event : PyVal) :
    (∀ f, fields = [f] →
      extract_objects factory fields event
        = ExtractResult.single
            (if (dictGet event f).truthy then some (factory (dictGet event f))
             else Option.none)) ∧
    (1 < fields.length →
      extract_objects factory fields event
        = ExtractResult.mapping
            ((fields.filter (fun f => (dictGet event f).truthy)).map
              (fun f => (f, factory (dictGet event f))))) := by
  constructor
  · intro f hf
    subst hf
    by_cases ht : (dictGet event f).truthy
    · simp [extract_objects, ht]
    · simp [extract_objects, ht]
  · intro hlen
    have hne : (fields.length == 1) = false := by
      simp only [beq_eq_false_iff_ne]
      omega
    unfold extract_objects
    rw [hne]
    simp only [Bool.false_eq_true, if_false]
    rw [filterMap_truthy_eq]

/-- C6, witness: a two-field schema with only one field present in the
message still yields a one-entry mapping, not a collapsed single object. -/
theorem c6_witness :
    extract_objects (fun v => v) ["a", "b"] (PyVal.ofDict [("a", PyVal.str "x")])
      = ExtractResult.mapping [("a", PyVal.str "x")] := by
  have h := (c6_extract_objects_schema_collapse (fun v => v) ["a", "b"]
    (PyVal.ofDict [("a", PyVal.str "x")])).2 (by decide)
  rw [h]
  decide

/-! Claim C7. -/

/-- C7: when the invariant of at most one registration per callback identity
holds for an event type, registering through on_event yields exactly the
previous list with any entry of the same callback removed at its original
position and the new registration appended last, and the invariant still
holds for every callback identity afterwards. -/
theorem c7_on_event_unique_replacement (r : Registry) (T : String) (cb : Nat)
    (eo : PyVal) (task : Bool) (args kwargs : PyVal)
    (hinv : ∀ c : Nat, ((regGet r T).filter (fun l => c == l.callback)).length ≤ 1) :
    regGet (on_event r T cb eo task args kwargs) T
      = (regGet r T).filter (fun l => !(cb == l.callback))
          ++ [⟨cb, eo, args, kwargs, task⟩] ∧
    ∀ c : Nat, ((regGet (on_event r T cb eo task args kwargs) T).filter
        (fun l => c == l.callback)).length ≤ 1 := by
  have hmain : regGet (on_event r T cb eo task args kwargs) T
      = (regGet r T).filter (fun l => !(cb == l.callback))
          ++ [⟨cb, eo, args, kwargs, task⟩] := by
    unfold on_event
    rw [regGet_regSet_self, pyForRemove_eq_filter _ (hinv cb)]
  refine ⟨hmain, ?_⟩
  intro c
  rw [hmain, List.filter_append]
  by_cases hc : c = cb
  · subst hc
    have h1 : ((regGet r T).filter (fun l => !(c == l.callback))).filter
        (fun l => c == l.callback) = [] := by
      rw [List.filter_filter]
      apply List.filter_eq_nil_iff.mpr
      intro a _
      simp [Bool.and_comm]
    rw [h1]
    simp
  · have h2 : List.filter (fun l => c == l.callback)
        [(⟨cb, eo, args, kwargs, task⟩ : Listener)] = [] := by
      simp [hc]
    have hcomm : ((regGet r T).filter (fun l => !(cb == l.callback))).filter
          (fun l => c == l.callback)
        = ((regGet r T).filter (fun l => c == l.callback)).filter
          (fun l => !(cb == l.callback)) := by
      rw [List.filter_filter, List.filter_filter]
      exact List.filter_congr fun a _ => Bool.and_comm _ _
    rw [h2, List.append_nil, hcomm]
    exact le_trans (List.length_filter_le _ _) (hinv c)

/-- A previously registered listener for callback 5. -/
def staleListener : Listener := ⟨5, PyVal.none, PyVal.tupleNil, PyVal.dictNil, false⟩

/-- A registry holding the stale registration for event type T. -/
def staleRegistry : Registry := [("T", [staleListener])]

/-- C7, witness: re-registering callback 5 replaces the stale entry and the
invariant persists. -/
theorem c7_witness :
    regGet (on_event staleRegistry "T" 5 (PyVal.int 3) true PyVal.tupleNil PyVal.dictNil) "T"
      = (regGet staleRegistry "T").filter (fun l => !((5 : Nat) == l.callback))
          ++ [⟨5, PyVal.int 3, PyVal.tupleNil, PyVal.dictNil, true⟩] ∧
    ∀ c : Nat, ((regGet (on_event staleRegistry "T" 5 (PyVal.int 3) true
        PyVal.tupleNil PyVal.dictNil) "T").filter
        (fun l => c == l.callback)).length ≤ 1 :=
  c7_on_event_unique_replacement staleRegistry "T" 5 (PyVal.int 3) true
    PyVal.tupleNil PyVal.dictNil
    (fun c => le_trans (List.length_filter_le _ _) (by decide))

/-! Claim C8. -/

/-- C8: the listener snapshot for a message of string type t is the list
registered for t followed by the list registered for the wildcard, both
in stored order, and the invocation trace of the dispatch loop is exactly
that snapshot in order, independent of any registry mutation the invoked
callbacks perform. -/
theorem c8_resolve_order_and_snapshot (env : Env) (r : Registry) (msg : PyVal)
    (t : String) (ht : msgTypeStr msg = some t) :
    resolveListeners r msg = regGet r t ++ regGet r "*" ∧
    (dispatchListeners env r msg).invoked
      = (regGet r t ++ regGet r "*").map (fun l => (l.callback, msg)) := by
  have h1 : resolveListeners r msg = regGet r t ++ regGet r "*" := by
    unfold resolveListeners
    rw [ht]
  refine ⟨h1, ?_⟩
  unfold dispatchListeners
  rw [h1, foldl_invoked]
  simp

/-- A wildcard listener. -/
def wildListener : Listener := ⟨21, PyVal.none, PyVal.tupleNil, PyVal.dictNil, false⟩

/-- A registry with a type-T listener and a wildcard listener. -/
def typeAndWildRegistry : Registry := [("T", [secondListener]), ("*", [wildListener])]

/-- C8, witness: snapshot and trace for a concrete registry with one type-T
and one wildcard listener. -/
theorem c8_witness :
    resolveListeners typeAndWildRegistry tMsg
      = regGet typeAndWildRegistry "T" ++ regGet typeAndWildRegistry "*" ∧
    (dispatchListeners trivialEnv typeAndWildRegistry tMsg).invoked
      = (regGet typeAndWildRegistry "T" ++ regGet typeAndWildRegistry "*").map
          (fun l => (l.callback, tMsg)) :=
  c8_resolve_order_and_snapshot trivialEnv typeAndWildRegistry tMsg "T" (by decide)

/-! Claim C9. -/

/-- Case analysis of the forwarding-call binding: it raises TypeError
exactly outside the collision-free condition, and on success the bound
event_obj, forwarded args and forwarded kwargs take one of three shapes
according to the extra positional count and the event_obj keyword. -/
theorem bindForwardedOnEventCall_spec (args kwargs : PyVal) :
    (bindForwardedOnEventCall args kwargs = Except.error "TypeError"
      ∧ ¬(tupleLen args ≤ 1 ∧ dictHasKey kwargs "as_task" = false
          ∧ dictHasKey kwargs "self" = false
          ∧ dictHasKey kwargs "event_type" = false
          ∧ dictHasKey kwargs "event_cb" = false
          ∧ (tupleLen args = 0 ∨ dictHasKey kwargs "event_obj" = false)))
    ∨ ((tupleLen args ≤ 1 ∧ dictHasKey kwargs "as_task" = false
          ∧ dictHasKey kwargs "self" = false
          ∧ dictHasKey kwargs "event_type" = false
          ∧ dictHasKey kwargs "event_cb" = false
          ∧ (tupleLen args = 0 ∨ dictHasKey kwargs "event_obj" = false))
        ∧ ((tupleLen args = 1
              ∧ bindForwardedOnEventCall args kwargs
                  = Except.ok (tupleHead args, PyVal.tupleNil, kwargs))
          ∨ (tupleLen args = 0 ∧ dictHasKey kwargs "event_obj" = true
              ∧ bindForwardedOnEventCall args kwargs
                  = Except.ok (dictGet kwargs "event_obj", PyVal.tupleNil,
                      dictRemove kwargs "event_obj"))
          ∨ (tupleLen args = 0 ∧ dictHasKey kwargs "event_obj" = false
              ∧ bindForwardedOnEventCall args kwargs
                  = Except.ok (PyVal.none, PyVal.tupleNil, kwargs)))) := by
  unfold bindForwardedOnEventCall
  by_cases hA : dictHasKey kwargs "as_task"
  · rw [if_pos hA]
    left
    refine ⟨rfl, ?_⟩
    rintro ⟨-, hA', -⟩
    rw [hA] at hA'
    cases hA'
  · rw [if_neg hA]
    have hA0 : dictHasKey kwargs "as_task" = false := by simpa using hA
    by_cases hN : 2 ≤ tupleLen args
    · rw [if_pos hN]
      left
      refine ⟨rfl, ?_⟩
      rintro ⟨h1, -⟩
      omega
    · rw [if_neg hN]
      by_cases hS : (dictHasKey kwargs "self" || dictHasKey kwargs "event_type"
          || dictHasKey kwargs "event_cb") = true
      · rw [if_pos hS]
        left
        refine ⟨rfl, ?_⟩
        rintro ⟨-, -, hs, het, hec, -⟩
        simp only [Bool.or_eq_true] at hS
        rcases hS with (h | h) | h
        · rw [h] at hs; cases hs
        · rw [h] at het; cases het
        · rw [h] at hec; cases hec
      · rw [if_neg hS]
        simp only [Bool.or_eq_true, not_or] at hS
        obtain ⟨⟨hs, het⟩, hec⟩ := hS
        have hs0 : dictHasKey kwargs "self" = false := by simpa using hs
        have het0 : dictHasKey kwargs "event_type" = false := by simpa using het
        have hec0 : dictHasKey kwargs "event_cb" = false := by simpa using hec
        by_cases h1 : (tupleLen args == 1) = true
        · rw [if_pos h1]
          have h1n : tupleLen args = 1 := by simpa using h1
          by_cases hE : dictHasKey kwargs "event_obj"
          · rw [if_pos hE]
            left
            refine ⟨rfl, ?_⟩
            rintro ⟨-, -, -, -, -, h0 | hE'⟩
            · omega
            · rw [hE] at hE'; cases hE'
          · rw [if_neg hE]
            have hE0 : dictHasKey kwargs "event_obj" = false := by simpa using hE
            right
            exact ⟨⟨by omega, hA0, hs0, het0, hec0, Or.inr hE0⟩,
                   Or.inl ⟨h1n, rfl⟩⟩
        · rw [if_neg h1]
          have h0n : tupleLen args = 0 := by
            have hne1 : tupleLen args ≠ 1 := by simpa using h1
            omega
          by_cases hE : dictHasKey kwargs "event_obj"
          · rw [if_pos hE]
            right
            exact ⟨⟨by omega, hA0, hs0, het0, hec0, Or.inl h0n⟩,
                   Or.inr (Or.inl ⟨h0n, hE, rfl⟩)⟩
          · rw [if_neg hE]
            have hE0 : dictHasKey kwargs "event_obj" = false := by simpa using hE
            right
            exact ⟨⟨by omega, hA0, hs0, het0, hec0, Or.inl h0n⟩,
                   Or.inr (Or.inr ⟨h0n, hE0, rfl⟩)⟩

/-- C9 (amended): on_object_event raises a ValueError exactly when the event
type is unknown to the event models or the model has no field of the
target kind; every error leaves the registry unchanged; with a valid
configuration the forwarding call succeeds exactly when at most one extra
positional argument is supplied and no keyword argument collides with a
parameter of on_event; and a successful registration stores a single
extra positional argument (or an event_obj keyword argument) as the
registration's event_obj, with an empty stored positional tuple. -/
theorem c9_on_object_event_config_error
    (em : List (String × List (String × String))) (r : Registry)
    (t : String) (cbId : Nat) (mid : String) (task : Bool)
    (args kwargs : PyVal) :
    (((on_object_event em r t cbId mid task args kwargs).2
          = some "ValueError: Cannot find event model"
        ∨ (on_object_event em r t cbId mid task args kwargs).2
          = some "ValueError: event model has no fields of this type")
      ↔ (lookupModel em t = Option.none
        ∨ ∃ props, lookupModel em t = some props ∧ obj_fields props mid = [])) ∧
    ((on_object_event em r t cbId mid task args kwargs).2.isSome →
      (on_object_event em r t cbId mid task args kwargs).1 = r) ∧
    (∀ props, lookupModel em t = some props → obj_fields props mid ≠ [] →
      ((on_object_event em r t cbId mid task args kwargs).2 = Option.none ↔
        (tupleLen args ≤ 1 ∧ dictHasKey kwargs "as_task" = false
          ∧ dictHasKey kwargs "self" = false
          ∧ dictHasKey kwargs "event_type" = false
          ∧ dictHasKey kwargs "event_cb" = false
          ∧ (tupleLen args = 0 ∨ dictHasKey kwargs "event_obj" = false)))) ∧
    ((on_object_event em r t cbId mid task args kwargs).2 = Option.none →
      (tupleLen args = 1 →
        (on_object_event em r t cbId mid task args kwargs).1
          = on_event r t cbId (tupleHead args) task PyVal.tupleNil kwargs) ∧
      (tupleLen args = 0 → dictHasKey kwargs "event_obj" = false →
        (on_object_event em r t cbId mid task args kwargs).1
          = on_event r t cbId PyVal.none task PyVal.tupleNil kwargs) ∧
      (tupleLen args = 0 → dictHasKey kwargs "event_obj" = true →
        (on_object_event em r t cbId mid task args kwargs).1
          = on_event r t cbId (dictGet kwargs "event_obj") task PyVal.tupleNil
              (dictRemove kwargs "event_obj"))) := by
  cases hl : lookupModel em t with
  | none =>
    have hres : on_object_event em r t cbId mid task args kwargs
        = (r, some "ValueError: Cannot find event model") := by
      simp [on_object_event, hl]
    rw [hres]
    refine ⟨?_, ?_, ?_, ?_⟩
    · constructor
      · intro _
        exact Or.inl rfl
      · intro _
        exact Or.inl rfl
    · intro _
      rfl
    · intro props hp
      exact absurd hp (by simp)
    · intro h
      simp at h
  | some props0 =>
    by_cases hf : (obj_fields props0 mid).isEmpty
    · have hnil : obj_fields props0 mid = [] := by simpa using hf
      have hres : on_object_event em r t cbId mid task args kwargs
          = (r, some "ValueError: event model has no fields of this type") := by
        simp [on_object_event, hl, hf]
      rw [hres]
      refine ⟨?_, ?_, ?_, ?_⟩
      · constructor
        · intro _
          exact Or.inr ⟨props0, rfl, hnil⟩
        · intro _
          exact Or.inr rfl
      · intro _
        rfl
      · intro props hp hne
        injection hp with hpe
        subst hpe
        exact absurd hnil hne
      · intro h
        simp at h
    · have hne0 : obj_fields props0 mid ≠ [] := by simpa using hf
      have hfeq : (obj_fields props0 mid).isEmpty = false := by simpa using hf
      have hrhsFalse : ¬((some props0 : Option (List (String × String))) = Option.none
          ∨ ∃ props, (some props0 : Option (List (String × String))) = some props
              ∧ obj_fields props mid = []) := by
        rintro (h | ⟨props, hp, hnil⟩)
        · exact Option.noConfusion h
        · injection hp with hpe
          subst hpe
          exact absurd hnil hne0
      rcases bindForwardedOnEventCall_spec args kwargs with ⟨hb, hnc⟩ | ⟨hc, hshape⟩
      · have hres : on_object_event em r t cbId mid task args kwargs
            = (r, some "TypeError") := by
          simp [on_object_event, hl, hfeq, hb]
        rw [hres]
        refine ⟨?_, ?_, ?_, ?_⟩
        · constructor
          · rintro (h | h) <;> simp at h
          · intro h
            exact absurd h hrhsFalse
        · intro _
          rfl
        · intro props hp hne
          constructor
          · intro h
            simp at h
          · intro hcond
            exact absurd hcond hnc
        · intro h
          simp at h
      · rcases hshape with ⟨h1n, hb⟩ | ⟨h0n, hE, hb⟩ | ⟨h0n, hE0, hb⟩
        · have hres : on_object_event em r t cbId mid task args kwargs
              = (on_event r t cbId (tupleHead args) task PyVal.tupleNil kwargs,
                 Option.none) := by
            simp [on_object_event, hl, hfeq, hb]
          rw [hres]
          refine ⟨?_, ?_, ?_, ?_⟩
          · constructor
            · rintro (h | h) <;> exact Option.noConfusion h
            · intro h
              exact absurd h hrhsFalse
          · intro h
            simp at h
          · intro props hp hne
            exact ⟨fun _ => hc, fun _ => rfl⟩
          · intro _
            refine ⟨fun _ => rfl, fun h0 _ => absurd h0 (by omega),
                    fun h0 _ => absurd h0 (by omega)⟩
        · have hres : on_object_event em r t cbId mid task args kwargs
              = (on_event r t cbId (dictGet kwargs "event_obj") task PyVal.tupleNil
                   (dictRemove kwargs "event_obj"), Option.none) := by
            simp [on_object_event, hl, hfeq, hb]
          rw [hres]
          refine ⟨?_, ?_, ?_, ?_⟩
          · constructor
            · rintro (h | h) <;> exact Option.noConfusion h
            · intro h
              exact absurd h hrhsFalse
          · intro h
            simp at h
          · intro props hp hne
            exact ⟨fun _ => hc, fun _ => rfl⟩
          · intro _
            refine ⟨fun h1 => absurd h1 (by omega), fun _ hEf => ?_, fun _ _ => rfl⟩
            rw [hE] at hEf
            cases hEf
        · have hres : on_object_event em r t cbId mid task args kwargs
              = (on_event r t cbId PyVal.none task PyVal.tupleNil kwargs,
                 Option.none) := by
            simp [on_object_event, hl, hfeq, hb]
          rw [hres]
          refine ⟨?_, ?_, ?_, ?_⟩
          · constructor
            · rintro (h | h) <;> exact Option.noConfusion h
            · intro h
              exact absurd h hrhsFalse
          · intro h
            simp at h
          · intro props hp hne
            exact ⟨fun _ => hc, fun _ => rfl⟩
          · intro _
            refine ⟨fun h1 => absurd h1 (by omega), fun _ _ => rfl, fun _ hEt => ?_⟩
            rw [hE0] at hEt
            cases hEt

/-- The event models used by the C9 scenarios: one event type E with a
single Channel-typed field. -/
def channelModels : List (String × List (String × String)) :=
  [("E", [("channel", "Channel")])]

/-- Two extra positional arguments for on_object_event. -/
def twoPositional : PyVal := PyVal.ofList [PyVal.int 1, PyVal.int 2]

/-- C9, counterexample: with a known event type and a matching field, a call
passing two extra positional arguments raises: the forwarding call binds
the second positional argument to the as_task parameter already given as
a keyword, a TypeError.  So registration does not succeed without
raising even though the configuration is valid, and the raised error is
not the configuration ValueError. -/
theorem c9_counterexample :
    lookupModel channelModels "E" = some [("channel", "Channel")] ∧
    obj_fields [("channel", "Channel")] "Channel" = ["channel"] ∧
    (on_object_event channelModels [] "E" 7 "Channel" false twoPositional
        PyVal.dictNil).2 = some "TypeError" := by
  refine ⟨by decide, by decide, by decide⟩

/-- One extra positional argument. -/
def onePositional : PyVal := PyVal.ofList [PyVal.str "id1"]

/-- C9, witness: with a valid configuration and one extra positional
argument, registration succeeds and the argument is stored as the
event_obj of the registration, not among its positional arguments. -/
theorem c9_witness :
    ((on_object_event channelModels [] "E" 7 "Channel" false onePositional
        PyVal.dictNil).2 = Option.none ↔
      (tupleLen onePositional ≤ 1 ∧ dictHasKey PyVal.dictNil "as_task" = false
        ∧ dictHasKey PyVal.dictNil "self" = false
        ∧ dictHasKey PyVal.dictNil "event_type" = false
        ∧ dictHasKey PyVal.dictNil "event_cb" = false
        ∧ (tupleLen onePositional = 0
            ∨ dictHasKey PyVal.dictNil "event_obj" = false))) ∧
    (on_object_event channelModels [] "E" 7 "Channel" false onePositional
        PyVal.dictNil).1
      = on_event [] "E" 7 (tupleHead onePositional) false PyVal.tupleNil
          PyVal.dictNil :=
  ⟨(c9_on_object_event_config_error channelModels [] "E" 7 "Channel" false
      onePositional PyVal.dictNil).2.2.1 [("channel", "Channel")]
      (by decide) (by decide),
   ((c9_on_object_event_config_error channelModels [] "E" 7 "Channel" false
      onePositional PyVal.dictNil).2.2.2 (by decide)).1 (by decide)⟩

/-! Claim C10. -/

/-- A dict whose lookup of k is not None has the key k. -/
theorem dictHasKey_of_dictGet_ne_none {v : PyVal} {k : String}
    (h : dictGet v k ≠ PyVal.none) : dictHasKey v k = true := by
  induction v with
  | dictCons key val t ihv iht =>
    by_cases hk : key == k
    · simp [dictHasKey, hk]
    · simp only [dictGet] at h
      rw [if_neg hk] at h
      simp [dictHasKey, hk, iht h]
  | none => simp [dictGet] at h
  | bool b => simp [dictGet] at h
  | int n => simp [dictGet] at h
  | str s => simp [dictGet] at h
  | func i => simp [dictGet] at h
  | tupleNil => simp [dictGet] at h
  | tupleCons hd tl ih1 ih2 => simp [dictGet] at h
  | dictNil => simp [dictGet] at h

/-- A message whose type field holds a string passes the well-formedness
check of the read loop. -/
theorem isValidEvent_of_dictGet_str {msg : PyVal} {s : String}
    (h : dictGet msg "type" = PyVal.str s) : isValidEvent msg = true := by
  have hne : dictGet msg "type" ≠ PyVal.none := by
    rw [h]
    intro hc
    cases hc
  have hk := dictHasKey_of_dictGet_ne_none hne
  unfold isValidEvent
  rw [hk]
  cases msg with
  | dictCons key val t => simp [isPyDict]
  | dictNil => simp [dictGet] at h
  | none => simp [dictGet] at h
  | bool b => simp [dictGet] at h
  | int n => simp [dictGet] at h
  | str s2 => simp [dictGet] at h
  | func i => simp [dictGet] at h
  | tupleNil => simp [dictGet] at h
  | tupleCons hd tl => simp [dictGet] at h

/-- C10: a ChannelDestroyed message whose channel field is absent, null or
otherwise not a dict makes the garbage-collection pass raise an
AttributeError that escapes process_ws, and a text frame carrying such a
message terminates the read loop with that error, with all later frames
unprocessed — provided at least one listener is registered when the pass
runs, since the comprehension body is never evaluated over empty
listener lists. -/
theorem c10_missing_channel_crashes (parse : String → Option PyVal) (env : Env)
    (r : Registry) (msg : PyVal) (rest : List Frame) (d : String)
    (hp : parse d = some msg)
    (htype : dictGet msg "type" = PyVal.str "ChannelDestroyed")
    (hch : isPyDict (dictGet msg "channel") = false)
    (hlis : anyListenerRegistered (dispatchListeners env r msg).registry = true) :
    (process_ws env r msg).2 = some "AttributeError" ∧
    runLoop parse env r (⟨WSKind.text, d⟩ :: rest)
      = ⟨(dispatchListeners env r msg).registry,
         RunOutcome.errored "AttributeError", []⟩ := by
  have herr : channelId msg = Except.error "AttributeError" := by
    unfold channelId
    cases hdg : dictGet msg "channel" <;>
      first
      | rfl
      | (rw [hdg] at hch; simp [isPyDict] at hch)
  have hgc : gcPass msg (dispatchListeners env r msg).registry
      = Except.error "AttributeError" := by
    unfold gcPass
    rw [htype]
    simp only [beq_self_eq_true, if_true]
    rw [if_pos hlis, herr]
  have hpw : process_ws env r msg
      = (dispatchListeners env r msg, some "AttributeError") := by
    simp only [process_ws]
    rw [hgc]
  refine ⟨by rw [hpw], ?_⟩
  have hvalid := isValidEvent_of_dictGet_str htype
  simp [runLoop, hp, hvalid, hpw]

/-- The ChannelDestroyed message with no channel field at all. -/
def noChannelMsg : PyVal := PyVal.ofDict [("type", PyVal.str "ChannelDestroyed")]

/-- A parse function mapping the payload cd to the channel-less
ChannelDestroyed message. -/
def cdParse : String → Option PyVal :=
  fun s => if s == "cd" then some noChannelMsg else Option.none

/-- C10, witness: with one listener registered, the channel-less
ChannelDestroyed message crashes process_ws and ends the read loop. -/
theorem c10_witness :
    (process_ws trivialEnv kwRegistry noChannelMsg).2 = some "AttributeError" ∧
    runLoop cdParse trivialEnv kwRegistry [⟨WSKind.text, "cd"⟩]
      = ⟨(dispatchListeners trivialEnv kwRegistry noChannelMsg).registry,
         RunOutcome.errored "AttributeError", []⟩ :=
  c10_missing_channel_crashes cdParse trivialEnv kwRegistry noChannelMsg [] "cd"
    (by decide) (by decide) (by decide) (by decide)

end Aioari
